import Mathlib

/-! Shallow embedding of the synchronization core of `aws_utils/s3_utils.py`
(a directory-to-S3 copy/move utility).  Pure string manipulation
(`urljoin`, `create_dst_fpath`, endpoint parsing, wildcard filtering) is
translated directly, working on character lists so that every definition
evaluates by kernel reduction.  The stateful transfer tasks are modelled as
functions from the read-only state they consult (the dedup table, the local
filesystem existence predicate) to the list of backend effects they perform
together with their return value.  Fallible Python code (`IndexError` on
empty-string subscripts, `ValueError` on tuple unpacking or on `str.split`
with an empty separator) is modelled with `Option`. -/

namespace S3Utils

/-- Python `os.sep` on POSIX. -/
def osSep : String := "/"

/-- Python `s.startswith(p)`. -/
def strStartsWith (s p : String) : Bool :=
  p.toList.isPrefixOf s.toList

/-- Python `s.endswith(p)`. -/
def strEndsWith (s p : String) : Bool :=
  p.toList.isSuffixOf s.toList

/-- Python `s[n:]` for a nonnegative `n`. -/
def strDrop (s : String) (n : Nat) : String :=
  (s.toList.drop n).asString

/-- Python `s.split(sep)` for a single-character separator `sep`, computed
on the character list (as used with `':'` in `_parse_src_dst` and with
`'*'` in the wildcard branch of `cp`). -/
def splitCharAux (sep : Char) : List Char → List (List Char)
  | [] => [[]]
  | c :: cs =>
      let rest := splitCharAux sep cs
      if c = sep then [] :: rest else (c :: rest.headD []) :: rest.tail

/-- Python `s.split(sep)` for a single-character separator. -/
def pySplitChar (sep : Char) (s : String) : List String :=
  (splitCharAux sep s.toList).map List.asString

/-- Python `s.split(sep)` for an arbitrary non-empty separator: scan left
to right, splitting at each non-overlapping occurrence of `sep`.  The fuel
argument (always instantiated to more than the length of the scanned list)
only establishes termination. -/
def pySplitAux (sep : List Char) : Nat → List Char → List (List Char)
  | _, [] => [[]]
  | 0, l => [l]
  | fuel + 1, x :: xs =>
      if sep.isPrefixOf (x :: xs) then
        [] :: pySplitAux sep fuel (xs.drop (sep.length - 1))
      else
        let rest := pySplitAux sep fuel xs
        (x :: rest.headD []) :: rest.tail

/-- Python `s.split(sep)` for an arbitrary non-empty separator string
(as used with `src_dpath` in `create_dst_fpath`). -/
def pySplit (s sep : String) : List String :=
  (pySplitAux sep.toList (s.toList.length + 1) s.toList).map List.asString

/-- Python `posixpath.join a b` (the two-argument form of `os.path.join`
used by `create_dst_fpath`): if `b` starts with the separator it replaces
`a`; otherwise they are concatenated, inserting a separator unless `a` is
empty or already ends with one. -/
def pathJoin (a b : String) : String :=
  if strStartsWith b "/" then b
  else if a = "" ∨ strEndsWith a "/" then a ++ b
  else a ++ "/" ++ b

/-- Python `os.path.split(p)[-1]` on POSIX: the final path segment,
everything after the last `'/'` (the whole string when there is none). -/
def pathSplitTail (p : String) : String :=
  (pySplitChar '/' p).getLastD ""

/-- Python `s.rstrip(os.sep)` on POSIX: remove every trailing `'/'`. -/
def rstripSlash (s : String) : String :=
  ((s.toList.reverse.dropWhile fun c => c = '/').reverse).asString

/-- Python `os.path.split(p)[0]` on POSIX: everything up to the last
`'/'`, with trailing separators stripped unless the head consists only of
separators (this is the `os.makedirs` target in `cp_from_bucket`). -/
def pathSplitHead (p : String) : String :=
  let tail := pathSplitTail p
  let head := (p.toList.take (p.toList.length - tail.toList.length)).asString
  if head ≠ "" ∧ rstripSlash head ≠ "" then rstripSlash head else head

/-- `create_dst_fpath src_fname src_dpath dst_dpath` from the source:
`subpath = src_fname.split(src_dpath)[-1]` (the part after the last
non-overlapping occurrence of `src_dpath`, or all of `src_fname` when it
does not occur), then one leading `os.sep` is stripped from `subpath` if
present, then the result is `os.path.join(dst_dpath, subpath)`.  `none`
models the `ValueError` Python raises when the separator `src_dpath` is
the empty string. -/
def create_dst_fpath (src_fname src_dpath dst_dpath : String) : Option String :=
  if src_dpath = "" then none
  else
    let subpath := (pySplit src_fname src_dpath).getLastD ""
    let subpath := if strStartsWith subpath osSep then strDrop subpath 1 else subpath
    some (pathJoin dst_dpath subpath)

/-- The loop body of `urljoin`, iterated over the remaining arguments.
Python subscripting `joined[-1]` or `args[i][0]` raises `IndexError` on an
empty string, modelled by `none`; otherwise a step appends the next
argument, dropping or inserting one `'/'` at the join boundary exactly as
the three-way conditional in the source does. -/
def urljoinAux (joined : String) : List String → Option String
  | [] => some joined
  | b :: rest =>
      if joined = "" ∨ b = "" then none
      else if strEndsWith joined "/" ∧ strStartsWith b "/" then
        urljoinAux (joined ++ strDrop b 1) rest
      else if strEndsWith joined "/" ∨ strStartsWith b "/" then
        urljoinAux (joined ++ b) rest
      else
        urljoinAux (joined ++ "/" ++ b) rest

/-- `urljoin(*args)` from the source.  `none` models the `IndexError`
raised on `args[0]` when no argument is given and the `IndexError` raised
inside the loop when an empty string is subscripted. -/
def urljoin : List String → Option String
  | [] => none
  | a :: rest => urljoinAux a rest

/-- Transfer direction as inferred by `_parse_src_dst`. -/
inductive Direction
  | up
  | down
deriving DecidableEq

/-- `MultiprocessingS3Interface._parse_src_dst src dst` from the source:
`bucket_name, src = src.split(':')` succeeds exactly when the split has
two parts (any other number raises `ValueError`, caught by the `try`), in
which case direction is `down`; otherwise the same unpacking is attempted
on `dst` with direction `up`; if that also fails the final `ValueError`
(the configuration error) is raised, modelled by `none`. -/
def parse_src_dst (src dst : String) : Option (String × String × String × Direction) :=
  match pySplitChar ':' src with
  | [bucket_name, src2] => some (bucket_name, src2, dst, Direction.down)
  | _ =>
      match pySplitChar ':' dst with
      | [bucket_name, dst2] => some (bucket_name, src, dst2, Direction.up)
      | _ => none

/-- The read-only state a `PoolFunctions` transfer task consults: the
bucket name, the destination and source directory paths, and the dedup
lookup `in_bucket` built by `init_src_files` as
`{k: True for k in files_in_bucket}`, modelled by its key list (so the
Python `dict.get`, `True` when present and the falsy `None` otherwise, is
list membership).  The `direction` field and the inventory `src_fpaths`
only select which task runs over which items and are not consulted by the
per-item tasks themselves. -/
structure PoolFunctions where
  bucket_name : String
  dpath_dst : String
  dpath_src : String
  in_bucket : List String

/-- `PoolFunctions.cp_to_bucket` from the source, modelled as the list of
backend upload calls `(local file, bucket, key)` it performs paired with
its return value `self.in_bucket.get(fname_dst)` (truthy exactly when the
destination key is in the dedup table).  `none` propagates the failure of
`create_dst_fpath`. -/
def cp_to_bucket (pf : PoolFunctions) (fname_src : String) :
    Option (List (String × String × String) × Bool) :=
  match create_dst_fpath fname_src pf.dpath_src pf.dpath_dst with
  | none => none
  | some fname_dst =>
      if pf.in_bucket.contains fname_dst then some ([], true)
      else some ([(fname_src, pf.bucket_name, fname_dst)], false)

/-- `PoolFunctions.mv_to_bucket` from the source: run `cp_to_bucket`, then
`os.remove(filename)`.  Modelled as the upload calls of the copy step
paired with the list of local files deleted. -/
def mv_to_bucket (pf : PoolFunctions) (filename : String) :
    Option (List (String × String × String) × List String) :=
  match cp_to_bucket pf filename with
  | none => none
  | some (uploads, _present) => some (uploads, [filename])

/-- `PoolFunctions.cp_from_bucket` from the source, given the local
filesystem existence predicate `localExists` (`os.path.exists`).  Modelled
as the `os.makedirs` targets (the call is issued whenever the local file
is missing; a pre-existing directory raises `FileExistsError`, which the
source swallows), the backend download calls `(bucket, key, local file)`,
and the return value `file_exists`. -/
def cp_from_bucket (pf : PoolFunctions) (localExists : String → Bool)
    (fname_src : String) :
    Option (List String × List (String × String × String) × Bool) :=
  match create_dst_fpath fname_src pf.dpath_src pf.dpath_dst with
  | none => none
  | some fname_dst =>
      if localExists fname_dst then some ([], [], true)
      else
        some ([pathSplitHead fname_dst],
          [(pf.bucket_name, fname_src, fname_dst)], false)

/-- The wildcard branch of `MultiprocessingS3Interface.cp` (taken when
`fnames` is a string containing `'*'`, so `tokens` has at least two
elements): `tokens = fnames.split('*')`, keep the file paths whose final
path segment `os.path.split(x)[-1]` starts with `tokens[0]` and ends with
`tokens[1]`. -/
def filterWildcard (pattern : String) (src_fpaths : List String) : List String :=
  let tokens := pySplitChar '*' pattern
  src_fpaths.filter fun fp =>
    strStartsWith (pathSplitTail fp) (tokens.headD "") &&
      strEndsWith (pathSplitTail fp) ((tokens.drop 1).headD "")

/-- Concrete `PoolFunctions` state for an upload with one key already in
the bucket. -/
def pfUp : PoolFunctions :=
  { bucket_name := "bkt", dpath_dst := "out", dpath_src := "in",
    in_bucket := ["out/f"] }

/-- Concrete `PoolFunctions` state for a download. -/
def pfDown : PoolFunctions :=
  { bucket_name := "bkt", dpath_dst := "out", dpath_src := "data",
    in_bucket := ["data/f", "data/d/g"] }

end S3Utils


namespace S3Utils

theorem splitCharAux_ne_nil (sep : Char) (l : List Char) : splitCharAux sep l ≠ [] := by
  cases l with
  | nil => simp [splitCharAux]
  | cons c cs =>
      simp only [splitCharAux]
      split <;> simp

theorem length_splitCharAux (sep : Char) (l : List Char) :
    (splitCharAux sep l).length = l.count sep + 1 := by
  induction l with
  | nil => simp [splitCharAux]
  | cons c cs ih =>
      have hne := splitCharAux_ne_nil sep cs
      simp only [splitCharAux, List.count_cons]
      by_cases h : c = sep
      · simp [h, ih]
      · have hlen : (splitCharAux sep cs).tail.length = (splitCharAux sep cs).length - 1 :=
          List.length_tail _
        have hpos : 1 ≤ (splitCharAux sep cs).length := List.length_pos.mpr hne
        simp only [if_neg h, List.length_cons, hlen, ih]
        have hb : (c == sep) = false := by simp [h]
        simp [hb]

theorem length_pySplitChar (sep : Char) (s : String) :
    (pySplitChar sep s).length = s.toList.count sep + 1 := by
  simp [pySplitChar, length_splitCharAux]

end S3Utils

namespace S3Utils

/-- C2 counterexample: with both endpoints bucket-qualified, parsing does
not fail: `parse("a:x", "b:y")` succeeds, taking bucket `"a"` and
direction `down` from `src` and leaving `dst` as the literal string
`"b:y"`, contradicting the claim that it raises a ConfigurationError. -/
theorem parse_src_dst_both_qualified_cex :
    parse_src_dst "a:x" "b:y" ≠ none ∧
    parse_src_dst "a:x" "b:y" = some ("a", "x", "b:y", Direction.down) := by
  constructor
  · decide
  · decide

/-- C2 (amended): `parse("x", "y")` fails with the configuration error,
but `parse("a:x", "b:y")` succeeds with bucket `"a"` and direction `down`;
in general parsing fails exactly when neither endpoint string splits into
exactly two `':'`-separated parts. -/
theorem parse_src_dst_config_error :
    parse_src_dst "x" "y" = none ∧
    parse_src_dst "a:x" "b:y" = some ("a", "x", "b:y", Direction.down) ∧
    ∀ src dst : String, parse_src_dst src dst = none ↔
      ((pySplitChar ':' src).length ≠ 2 ∧ (pySplitChar ':' dst).length ≠ 2) := by
  refine ⟨by decide, by decide, ?_⟩
  intro src dst
  rcases hs : pySplitChar ':' src with _ | ⟨a, _ | ⟨b, _ | rs⟩⟩ <;>
    rcases hd : pySplitChar ':' dst with _ | ⟨c, _ | ⟨d, _ | rd⟩⟩ <;>
      simp [parse_src_dst, hs, hd]

/-- Witness for the amended C2 theorem at a concrete input. -/
theorem parse_src_dst_config_error_witness :
    parse_src_dst "p" "q" = none :=
  (parse_src_dst_config_error.2.2 "p" "q").mpr (by decide)

/-- C10: a `src` endpoint containing two or more `':'` characters is not
accepted as a bucket qualifier (its two-element unpacking raises
`ValueError`), so parsing falls through to `dst`: if `dst` contains
exactly one `':'` the result takes bucket and direction (`up`) from `dst`
and keeps `src` whole; otherwise the configuration error is raised. -/
theorem parse_src_dst_multi_colon (src dst : String)
    (h : 2 ≤ src.toList.count ':') :
    (∀ b d2, pySplitChar ':' dst = [b, d2] →
        parse_src_dst src dst = some (b, src, d2, Direction.up)) ∧
    (dst.toList.count ':' ≠ 1 → parse_src_dst src dst = none) := by
  have hlen : (pySplitChar ':' src).length = src.toList.count ':' + 1 :=
    length_pySplitChar ':' src
  have hsrc : 3 ≤ (pySplitChar ':' src).length := by omega
  rcases hs : pySplitChar ':' src with _ | ⟨a, _ | ⟨b, _ | rs⟩⟩ <;>
    rw [hs] at hsrc <;> simp at hsrc
  constructor
  · intro b2 d2 hd
    simp [parse_src_dst, hs, hd]
  · intro hd1
    have hdlen : (pySplitChar ':' dst).length = dst.toList.count ':' + 1 :=
      length_pySplitChar ':' dst
    have hd2 : (pySplitChar ':' dst).length ≠ 2 := by omega
    rcases hd : pySplitChar ':' dst with _ | ⟨c, _ | ⟨d, _ | rd⟩⟩ <;>
      rw [hd] at hd2 <;> simp at hd2 <;> simp [parse_src_dst, hs, hd]

/-- Witness for the C10 theorem at a concrete input. -/
theorem parse_src_dst_multi_colon_witness :
    parse_src_dst "a:b:c" "m:out" = some ("m", "a:b:c", "out", Direction.up) ∧
    parse_src_dst "a:b:c" "nope" = none :=
  ⟨(parse_src_dst_multi_colon "a:b:c" "m:out" (by decide)).1 "m" "out" (by decide),
   (parse_src_dst_multi_colon "a:b:c" "nope" (by decide)).2 (by decide)⟩

end S3Utils

namespace S3Utils

/-- C1: for an upload item whose destination key `fname_dst` is computed
by the path mapper, `cp_to_bucket` performs zero backend upload calls and
returns the already-present result when `fname_dst` is in the dedup table,
and performs exactly one upload call `(item, bucket, fname_dst)` when it
is absent. -/
theorem cp_to_bucket_dedup (pf : PoolFunctions) (fname_src fname_dst : String)
    (h : create_dst_fpath fname_src pf.dpath_src pf.dpath_dst = some fname_dst) :
    (pf.in_bucket.contains fname_dst = true →
        cp_to_bucket pf fname_src = some ([], true)) ∧
    (pf.in_bucket.contains fname_dst = false →
        cp_to_bucket pf fname_src = some ([(fname_src, pf.bucket_name, fname_dst)], false)) := by
  constructor <;> intro hm
  · have hm2 : fname_dst ∈ pf.in_bucket := by simpa using hm
    simp [cp_to_bucket, h, hm2]
  · have hm2 : fname_dst ∉ pf.in_bucket := by simpa using hm
    simp [cp_to_bucket, h, hm2]

/-- Witness for the C1 theorem: with `"out/f"` in the table, uploading
`"in/f"` is skipped; uploading `"in/g"` performs the single call. -/
theorem cp_to_bucket_dedup_witness :
    cp_to_bucket pfUp "in/f" = some ([], true) ∧
    cp_to_bucket pfUp "in/g" = some ([("in/g", "bkt", "out/g")], false) :=
  ⟨(cp_to_bucket_dedup pfUp "in/f" "out/f" (by decide)).1 (by decide),
   (cp_to_bucket_dedup pfUp "in/g" "out/g" (by decide)).2 (by decide)⟩

/-- C3: whenever the upload step of `mv_to_bucket` returns, the local file
is deleted, both when the upload was skipped as a duplicate and when it
was actually transferred. -/
theorem mv_to_bucket_deletes (pf : PoolFunctions) (filename fname_dst : String)
    (h : create_dst_fpath filename pf.dpath_src pf.dpath_dst = some fname_dst) :
    (pf.in_bucket.contains fname_dst = true →
        mv_to_bucket pf filename = some ([], [filename])) ∧
    (pf.in_bucket.contains fname_dst = false →
        mv_to_bucket pf filename =
          some ([(filename, pf.bucket_name, fname_dst)], [filename])) := by
  constructor <;> intro hm
  · have hm2 : fname_dst ∈ pf.in_bucket := by simpa using hm
    simp [mv_to_bucket, cp_to_bucket, h, hm2]
  · have hm2 : fname_dst ∉ pf.in_bucket := by simpa using hm
    simp [mv_to_bucket, cp_to_bucket, h, hm2]

/-- Witness for the C3 theorem: the delete happens in the skipped case and
in the transferred case alike. -/
theorem mv_to_bucket_deletes_witness :
    mv_to_bucket pfUp "in/f" = some ([], ["in/f"]) ∧
    mv_to_bucket pfUp "in/g" = some ([("in/g", "bkt", "out/g")], ["in/g"]) :=
  ⟨(mv_to_bucket_deletes pfUp "in/f" "out/f" (by decide)).1 (by decide),
   (mv_to_bucket_deletes pfUp "in/g" "out/g" (by decide)).2 (by decide)⟩

/-- C8: for a download item whose destination path `fname_dst` is computed
by the path mapper, `cp_from_bucket` performs no backend call and skips
when a local file already exists at `fname_dst`; otherwise it issues the
`os.makedirs` call on the parent directory (tolerating a pre-existing
directory) and exactly one download from the bucket key `fname_src` to
`fname_dst`. -/
theorem cp_from_bucket_spec (pf : PoolFunctions) (localExists : String → Bool)
    (fname_src fname_dst : String)
    (h : create_dst_fpath fname_src pf.dpath_src pf.dpath_dst = some fname_dst) :
    (localExists fname_dst = true →
        cp_from_bucket pf localExists fname_src = some ([], [], true)) ∧
    (localExists fname_dst = false →
        cp_from_bucket pf localExists fname_src =
          some ([pathSplitHead fname_dst],
            [(pf.bucket_name, fname_src, fname_dst)], false)) := by
  constructor <;> intro hm <;> simp [cp_from_bucket, h, hm]

/-- Witness for the C8 theorem: with `"out/f"` present locally the
download of `"data/f"` is skipped; `"data/d/g"` is downloaded after the
parent directory `"out/d"` is created. -/
theorem cp_from_bucket_spec_witness :
    cp_from_bucket pfDown (fun p => p == "out/f") "data/f" = some ([], [], true) ∧
    cp_from_bucket pfDown (fun p => p == "out/f") "data/d/g" =
      some (["out/d"], [("bkt", "data/d/g", "out/d/g")], false) :=
  ⟨(cp_from_bucket_spec pfDown (fun p => p == "out/f") "data/f" "out/f"
      (by decide)).1 (by decide),
   (cp_from_bucket_spec pfDown (fun p => p == "out/f") "data/d/g" "out/d/g"
      (by decide)).2 (by decide)⟩

end S3Utils

namespace S3Utils

theorem str_append_empty (s : String) : s ++ "" = s := by
  apply String.ext
  simp [String.data_append]

theorem str_append_ne_empty (s t : String) (h : s ≠ "") : s ++ t ≠ "" := by
  intro he
  apply h
  apply String.ext
  have hd : (s ++ t).data = ("" : String).data := by rw [he]
  rw [String.data_append] at hd
  rcases List.append_eq_nil.mp hd with ⟨h1, _⟩
  simpa using h1

/-- C4 counterexample: an item identifier equal to `src_root` strips to
the empty remainder, and the mapper returns `dst_root` with a trailing
separator appended, not exactly `dst_root`. -/
theorem create_dst_fpath_empty_remainder_cex :
    (pySplit "root" "root").getLastD "" = "" ∧
    create_dst_fpath "root" "root" "out" = some "out/" ∧
    some "out/" ≠ some "out" := by
  refine ⟨by decide, by decide, by decide⟩

/-- C4 (amended): when stripping `src_root` leaves an empty remainder, the
mapper returns `os.path.join(dst_root, "")`, which is exactly `dst_root`
only when `dst_root` is empty or already ends with the separator and is
`dst_root` with one trailing separator appended otherwise. -/
theorem create_dst_fpath_empty_remainder (src_fname src_dpath dst_dpath : String)
    (hs : src_dpath ≠ "")
    (h : (pySplit src_fname src_dpath).getLastD "" = "") :
    create_dst_fpath src_fname src_dpath dst_dpath =
      some (if dst_dpath = "" ∨ strEndsWith dst_dpath "/" then dst_dpath
            else dst_dpath ++ "/") := by
  have hsw : strStartsWith "" osSep = false := by decide
  have hsw2 : strStartsWith "" "/" = false := by decide
  simp only [create_dst_fpath, if_neg hs, h, hsw, hsw2, Bool.false_eq_true, if_false, pathJoin]
  by_cases hc : dst_dpath = "" ∨ strEndsWith dst_dpath "/" = true
  · simp [hsw2, hc, str_append_empty]
  · simp [hsw2, hc, str_append_empty]

/-- Witness for the amended C4 theorem at concrete inputs covering both
shapes of `dst_root`. -/
theorem create_dst_fpath_empty_remainder_witness :
    create_dst_fpath "data" "data" "pool" = some "pool/" ∧
    create_dst_fpath "data" "data" "pool/" = some "pool/" :=
  ⟨(create_dst_fpath_empty_remainder "data" "data" "pool" (by decide) (by decide)).trans
      (by decide),
   (create_dst_fpath_empty_remainder "data" "data" "pool/" (by decide) (by decide)).trans
      (by decide)⟩

end S3Utils

namespace S3Utils

/-- C5 counterexample: with `d = "out"` not beginning with `s = "zz"` and
a first result `"out/q"` that does not contain `s` at all (so certainly
not as a prefix), re-applying the mapper yields `"out/out/q"`, not the
first result: the mapper is not idempotent under re-application. -/
theorem create_dst_fpath_not_idempotent_cex :
    strStartsWith "out" "zz" = false ∧
    strStartsWith "out/q" "zz" = false ∧
    pySplit "out/q" "zz" = ["out/q"] ∧
    create_dst_fpath "q" "zz" "out" = some "out/q" ∧
    create_dst_fpath "out/q" "zz" "out" = some "out/out/q" ∧
    some "out/out/q" ≠ some "out/q" := by
  refine ⟨by decide, by decide, by decide, by decide, by decide, by decide⟩

/-- C5 (amended): re-application is not the identity on the first result.
When `s` is non-empty and does not occur in the first result `y` at all
(so in particular not as a prefix), `d` does not begin with `s`, and `y`
does not start with the separator, a second application returns
`os.path.join(d, y)` — it prefixes `d` again rather than leaving `y`
unchanged, so idempotence fails whenever that join differs from `y`. -/
theorem create_dst_fpath_reapply (x s d y : String) (hs : s ≠ "")
    (hd : strStartsWith d s = false)
    (h1 : create_dst_fpath x s d = some y)
    (h2 : pySplit y s = [y])
    (h3 : strStartsWith y osSep = false) :
    create_dst_fpath y s d = some (pathJoin d y) := by
  simp [create_dst_fpath, hs, h2, h3]

/-- Witness for the amended C5 theorem: the first application maps
`"data/f.txt"` to `"pool/out/f.txt"`; the second application prefixes the
destination root again. -/
theorem create_dst_fpath_reapply_witness :
    create_dst_fpath "pool/out/f.txt" "data" "pool/out" =
      some "pool/out/pool/out/f.txt" :=
  (create_dst_fpath_reapply "data/f.txt" "data" "pool/out" "pool/out/f.txt"
      (by decide) (by decide) (by decide) (by decide) (by decide)).trans (by decide)

/-- C6 counterexample: the path mapper joins with native `os.path.join`,
not with `urljoin`.  For the item `"s//c/d"` under root `"s"` the stripped
remainder is `"/c/d"`, and the mapper returns `"/c/d"` (the native join
discards `dst_root` before an absolute remainder) while the slash-joining
`urljoin` returns `"a/b/c/d"`. -/
theorem create_dst_fpath_not_urljoin_cex :
    create_dst_fpath "s//c/d" "s" "a/b/" = some "/c/d" ∧
    urljoin ["a/b/", "/c/d"] = some "a/b/c/d" ∧
    some "/c/d" ≠ some "a/b/c/d" := by
  refine ⟨by decide, by decide, by decide⟩

/-- C6 (amended): the mapper uses native `os.path.join` for every
destination (`urljoin` is defined but never called); the two joins do
agree whenever the remainder is non-empty and does not begin with `'/'`
and `dst_root` is non-empty, and `urljoin` itself produces no doubled
slash and inserts exactly one slash in the two specified examples. -/
theorem urljoin_pathJoin_agree (d r : String) (hd : d ≠ "") (hr : r ≠ "")
    (h : strStartsWith r "/" = false) :
    urljoin [d, r] = some (pathJoin d r) ∧
    urljoin ["a/b/", "/c/d"] = some "a/b/c/d" ∧
    urljoin ["a/b", "c/d"] = some "a/b/c/d" := by
  refine ⟨?_, by decide, by decide⟩
  show urljoinAux d [r] = some (pathJoin d r)
  by_cases he : strEndsWith d "/" = true
  · simp [urljoinAux, pathJoin, hd, hr, h, he]
  · simp [urljoinAux, pathJoin, hd, hr, h, he]

/-- Witness for the amended C6 theorem at a concrete boundary without a
slash on either side. -/
theorem urljoin_pathJoin_agree_witness :
    urljoin ["a/b", "c/d"] = some (pathJoin "a/b" "c/d") :=
  (urljoin_pathJoin_agree "a/b" "c/d" (by decide) (by decide) (by decide)).1

end S3Utils

namespace S3Utils

/-- C7: when the filter is a single-wildcard pattern splitting into the
halves `p` and `s` around its `'*'`, the engine keeps exactly the source
items whose final path segment starts with `p` and ends with `s`; on the
specified inputs, `"cat*.gif"` selects `["cat1.gif", "cat.gif"]` only. -/
theorem filterWildcard_single_star (p s pattern : String) (items : List String)
    (h : pySplitChar '*' pattern = [p, s]) :
    (∀ x, x ∈ filterWildcard pattern items ↔
        x ∈ items ∧ (strStartsWith (pathSplitTail x) p = true ∧
          strEndsWith (pathSplitTail x) s = true)) ∧
    filterWildcard "cat*.gif" ["cat1.gif", "dog.gif", "category.png", "cat.gif"] =
      ["cat1.gif", "cat.gif"] := by
  refine ⟨?_, by decide⟩
  intro x
  simp [filterWildcard, h, List.mem_filter]

/-- Witness for the C7 theorem at a concrete item and pattern. -/
theorem filterWildcard_single_star_witness :
    "cat1.gif" ∈ filterWildcard "cat*.gif" ["cat1.gif", "dog.gif"] :=
  ((filterWildcard_single_star "cat" ".gif" "cat*.gif" ["cat1.gif", "dog.gif"]
      (by decide)).1 "cat1.gif").mpr (by decide)

theorem urljoinAux_total (rest : List String) :
    ∀ joined : String, joined ≠ "" → (∀ b ∈ rest, b ≠ "") →
      ∃ j, urljoinAux joined rest = some j ∧ j ≠ "" := by
  induction rest with
  | nil => exact fun joined hj _ => ⟨joined, rfl, hj⟩
  | cons b rest ih =>
      intro joined hj hb
      have hbne : b ≠ "" := hb b (List.mem_cons_self b rest)
      have hbr : ∀ c ∈ rest, c ≠ "" := fun c hc => hb c (List.mem_cons_of_mem b hc)
      have hcond : ¬(joined = "" ∨ b = "") := by
        rintro (h1 | h2)
        · exact hj h1
        · exact hbne h2
      simp only [urljoinAux, if_neg hcond]
      split
      · exact ih _ (str_append_ne_empty _ _ hj) hbr
      · split
        · exact ih _ (str_append_ne_empty _ _ hj) hbr
        · exact ih _ (str_append_ne_empty _ _ (str_append_ne_empty _ _ hj)) hbr

theorem urljoinAux_empty_arg (l1 : List String) :
    ∀ (joined : String) (l2 : List String),
      urljoinAux joined (l1 ++ "" :: l2) = none := by
  induction l1 with
  | nil =>
      intro joined l2
      show urljoinAux joined ("" :: l2) = none
      simp [urljoinAux]
  | cons b l1 ih =>
      intro joined l2
      show urljoinAux joined (b :: (l1 ++ "" :: l2)) = none
      simp only [urljoinAux]
      by_cases hc : joined = "" ∨ b = ""
      · rw [if_pos hc]
      · rw [if_neg hc]
        split
        · exact ih _ _
        · split
          · exact ih _ _
          · exact ih _ _

/-- C9 counterexample: the single-argument call `urljoin("")` returns the
empty string without raising, so an argument list whose first argument is
the empty string does not always fail, and `urljoin` is total on an
argument list that is not made of non-empty strings. -/
theorem urljoin_singleton_empty_cex :
    urljoin [""] = some "" ∧ some "" ≠ (none : Option String) := by
  refine ⟨by decide, by decide⟩

/-- C9 (amended): on argument lists with at least two arguments, `urljoin`
fails with the out-of-range index access exactly as claimed: it returns
`none` when the first argument is empty or any later argument is empty,
and it returns a joined string on any arguments that are all non-empty
(the single-argument call returns its argument unexamined, even when that
argument is empty). -/
theorem urljoin_empty_string_failing (a : String) (args : List String)
    (hne : args ≠ []) :
    (a = "" → urljoin (a :: args) = none) ∧
    (∀ b ∈ args, b = "" → urljoin (a :: args) = none) ∧
    (a ≠ "" → (∀ b ∈ args, b ≠ "") → ∃ j, urljoin (a :: args) = some j) := by
  refine ⟨?_, ?_, ?_⟩
  · intro ha
    subst ha
    obtain ⟨c, rest, rfl⟩ : ∃ c rest, args = c :: rest := by
      cases args with
      | nil => exact absurd rfl hne
      | cons c rest => exact ⟨c, rest, rfl⟩
    show urljoinAux "" (c :: rest) = none
    simp [urljoinAux]
  · intro b hb hbe
    subst hbe
    obtain ⟨l1, l2, rfl⟩ := List.append_of_mem hb
    exact urljoinAux_empty_arg l1 a l2
  · intro ha hb
    obtain ⟨j, hj, _⟩ := urljoinAux_total args a ha hb
    exact ⟨j, hj⟩

/-- Witness for the amended C9 theorem: both failing shapes and a total
call. -/
theorem urljoin_empty_string_failing_witness :
    urljoin ["", "x"] = none ∧ urljoin ["a", ""] = none ∧
      ∃ j, urljoin ["a", "b"] = some j :=
  ⟨(urljoin_empty_string_failing "" ["x"] (by decide)).1 rfl,
   (urljoin_empty_string_failing "a" [""] (by decide)).2.1 "" (by decide) rfl,
   (urljoin_empty_string_failing "a" ["b"] (by decide)).2.2 (by decide) (by decide)⟩

end S3Utils
